import Mathlib

/- A shallow embedding of the thread pool implementation in
   src/ThreadPool/threadpool.h and src/ThreadPool/threadpool.cpp.

   Modelling conventions:
   - C++ int fields are modelled as Int; std::size_t values as Nat.
     The one place the code compares a signed int against a size_t,
     namely taskQue_.size() < (size_t)taskQueMaxThreshHold_ in
     submitTask, is modelled with an explicit conversion modulo 2^64
     (sizeTCast below), matching the C conversion rule.
   - Each critical section guarded by taskQueMtx_ is one atomic step of
     the model.  Condition-variable waits are modelled by the caller
     observing the guarding predicate at the moment the wait returns:
     wait_for with a predicate returns the value of the predicate, so
     the rejected branch of submitTask corresponds exactly to the
     predicate being false when the 1-second wait expired.
   - The task queue holds task identifiers (Nat) standing for the
     shared_ptr to Task objects; the Task or Result handshake is
     modelled separately at object level (Task, Result below), exactly
     following Task::exec, Result::get and Result::setVal.
   - The worker registry threads_ (an unordered_map keyed by thread id)
     is modelled as the list of its keys; emplace appends, erase removes.
-/

namespace ThreadPoolModel

/-- Pool working modes, from enum class PoolMode in threadpool.h. -/
inductive PoolMode where
  | MODE_FIXED
  | MODE_CACHED
  deriving DecidableEq, Repr

/-- Constant TASK_MAX_THRESHHOLD = INT32_MAX from threadpool.cpp line 6. -/
def TASK_MAX_THRESHHOLD : Int := 2147483647

/-- Constant THREAD_MAX_THRESHHOLD = 1024 from threadpool.cpp line 7. -/
def THREAD_MAX_THRESHHOLD : Int := 1024

/-- Constant THREAD_MAX_IDLE_TIME = 60 seconds from threadpool.cpp line 8. -/
def THREAD_MAX_IDLE_TIME : Int := 60

/-- Values stored in the type-erased Any container of threadpool.h.
    null models a default-constructed Any (base_ == nullptr), including
    the moved-from state left behind by std::move; str models an Any
    holding a string (the reject path of Result::get returns the empty
    string); val models an Any holding an arbitrary payload. -/
inductive Any where
  | null
  | str (s : String)
  | val (n : Nat)
  deriving DecidableEq, Repr

/-- State of a Result handle: isValid_ (atomic_bool), the Semaphore
    sem_ reduced to its resLimit_ counter (constructed with limit 0),
    and the stored Any value any_.  Semaphore::wait blocks until
    resLimit_ > 0 and then decrements it; Semaphore::post increments it
    and notifies.  resLimit_ is an int that starts at 0 and is only
    decremented when positive, so Nat is an exact model. -/
structure Result where
  isValid : Bool
  sem : Nat
  any : Any
  deriving DecidableEq, Repr

/-- Result::setVal (threadpool.cpp lines 313-318): stores the value and
    posts the semaphore (resLimit_++). -/
def Result.setVal (r : Result) (a : Any) : Result :=
  { r with any := a, sem := r.sem + 1 }

/-- Result::get (threadpool.cpp lines 302-310).  If the handle is
    invalid, returns the empty string immediately.  Otherwise the
    caller waits on the semaphore: if resLimit_ > 0 the wait consumes
    one unit and the stored value is moved out (leaving a
    default-constructed Any); if resLimit_ = 0 the caller blocks,
    modelled by Option.none. -/
def Result.get (r : Result) : Option (Any × Result) :=
  if r.isValid = false then
    some (Any.str "", r)
  else if 0 < r.sem then
    some (r.any, { r with sem := r.sem - 1, any := Any.null })
  else
    none

/-- A Task object: result_ is the raw pointer to the paired Result
    (set by the Result constructor through setResult, nullptr before
    that), and runVal is the value the user-overridden run() produces. -/
structure Task where
  result : Option Result
  runVal : Any
  deriving DecidableEq, Repr

/-- Task::exec (threadpool.cpp lines 280-286): if result_ is not null,
    publish the value of run() into the paired Result via setVal. -/
def Task.exec (t : Task) : Task :=
  match t.result with
  | Option.none => t
  | Option.some r => { t with result := Option.some (r.setVal t.runVal) }

/-- The conversion (size_t)x applied to a signed integer x: reduction
    modulo 2^64.  A negative int becomes a huge unsigned value. -/
def sizeTCast (i : Int) : Nat := (i % (2 ^ 64 : Int)).toNat

/-- State of a ThreadPool object (threadpool.h lines 224-243).  The
    queue stores task identifiers; threads lists the keys of the
    threads_ map; nextThreadId models Thread::generateId_. -/
structure ThreadPool where
  initThreadSize : Int
  threadSizeThreshHold : Int
  curThreadSize : Int
  idleThreadSize : Int
  taskQue : List Nat
  taskSize : Int
  taskQueMaxThreshHold : Int
  threads : List Nat
  nextThreadId : Nat
  poolMode : PoolMode
  isPoolRunning : Bool
  deriving DecidableEq, Repr

/-- The ThreadPool constructor (threadpool.cpp lines 11-20): all counts
    zero, queue threshold TASK_MAX_THRESHHOLD, thread threshold
    THREAD_MAX_THRESHHOLD, MODE_FIXED, not running. -/
def ThreadPool.new : ThreadPool :=
  { initThreadSize := 0
  , threadSizeThreshHold := THREAD_MAX_THRESHHOLD
  , curThreadSize := 0
  , idleThreadSize := 0
  , taskQue := []
  , taskSize := 0
  , taskQueMaxThreshHold := TASK_MAX_THRESHHOLD
  , threads := []
  , nextThreadId := 0
  , poolMode := PoolMode.MODE_FIXED
  , isPoolRunning := false }

/-- ThreadPool::setMode (threadpool.cpp lines 35-40): no-op while
    running. -/
def ThreadPool.setMode (p : ThreadPool) (m : PoolMode) : ThreadPool :=
  if p.isPoolRunning then p else { p with poolMode := m }

/-- ThreadPool::setTaskQueMaxThreshHold (threadpool.cpp lines 44-49):
    no-op while running. -/
def ThreadPool.setTaskQueMaxThreshHold (p : ThreadPool) (t : Int) : ThreadPool :=
  if p.isPoolRunning then p else { p with taskQueMaxThreshHold := t }

/-- ThreadPool::setThreadSizeThreshHold (threadpool.cpp lines 53-61):
    no-op while running, and only effective in MODE_CACHED. -/
def ThreadPool.setThreadSizeThreshHold (p : ThreadPool) (t : Int) : ThreadPool :=
  if p.isPoolRunning then p
  else if p.poolMode = PoolMode.MODE_CACHED then
    { p with threadSizeThreshHold := t }
  else p

/-- ThreadPool::start (threadpool.cpp lines 113-141): sets running,
    records initThreadSize_ and curThreadSize_, creates n Thread
    objects with fresh monotonic ids, starts them and counts each as
    idle.  The argument is the int parameter; the creation loops run
    max(n,0) times. -/
def ThreadPool.start (p : ThreadPool) (n : Int) : ThreadPool :=
  { p with isPoolRunning := true
         , initThreadSize := n
         , curThreadSize := n
         , threads := p.threads ++ (List.range n.toNat).map (fun i => p.nextThreadId + i)
         , nextThreadId := p.nextThreadId + n.toNat
         , idleThreadSize := p.idleThreadSize + (n.toNat : Int) }

/-- ThreadPool::submitTask (threadpool.cpp lines 65-110).  The
    notFull_.wait_for call returns the value of the predicate
    taskQue_.size() < (size_t)taskQueMaxThreshHold_ when it returns;
    if false after the 1-second budget, returns Result(sp, false) and
    changes nothing.  Otherwise the task is enqueued, taskSize_
    incremented, notEmpty_ notified, and, when the pool is in
    MODE_CACHED with taskSize_ > idleThreadSize_ and curThreadSize_ <
    threadSizeThreshHold_, exactly one new Thread is created, started
    and registered before returning Result(sp). -/
def ThreadPool.submitTask (p : ThreadPool) (t : Nat) : ThreadPool × Result :=
  if p.taskQue.length < sizeTCast p.taskQueMaxThreshHold then
    let p1 : ThreadPool := { p with taskQue := p.taskQue ++ [t], taskSize := p.taskSize + 1 }
    if p1.poolMode = PoolMode.MODE_CACHED ∧ p1.idleThreadSize < p1.taskSize
        ∧ p1.curThreadSize < p1.threadSizeThreshHold then
      ({ p1 with threads := p1.threads ++ [p1.nextThreadId]
               , nextThreadId := p1.nextThreadId + 1
               , curThreadSize := p1.curThreadSize + 1
               , idleThreadSize := p1.idleThreadSize + 1 }
      , { isValid := true, sem := 0, any := Any.null })
    else
      (p1, { isValid := true, sem := 0, any := Any.null })
  else
    (p, { isValid := false, sem := 0, any := Any.null })

/-- The dequeue step of ThreadPool::threadFunc (threadpool.cpp lines
    220-227), entered when the queue is non-empty: idleThreadSize_--,
    pop the front task, taskSize_--, notify notFull_. -/
def ThreadPool.workerTake (p : ThreadPool) : Option Nat × ThreadPool :=
  match p.taskQue with
  | [] => (Option.none, p)
  | t :: rest =>
      (Option.some t,
       { p with taskQue := rest
              , taskSize := p.taskSize - 1
              , idleThreadSize := p.idleThreadSize - 1 })

/-- The post-execution step of ThreadPool::threadFunc (threadpool.cpp
    line 237): idleThreadSize_++ after the task has run. -/
def ThreadPool.execDone (p : ThreadPool) : ThreadPool :=
  { p with idleThreadSize := p.idleThreadSize + 1 }

/-- What one iteration of the outer loop of threadFunc did. -/
inductive WorkerAction where
  | executed (t : Nat)
  | exitShutdown
  | exitIdleTimeout
  | waited
  deriving DecidableEq, Repr

/-- One iteration of the worker loop of ThreadPool::threadFunc
    (threadpool.cpp lines 151-239), taken at the point where the lock
    has just been acquired (or reacquired after a wait).  threadid is
    the worker identity; timedOut records whether the Cached-mode
    notEmpty_.wait_for returned cv_status::timeout; dur is the elapsed
    idle time in seconds since lastTime.
    - Queue empty and pool not running: erase self from threads_,
      notify exitCond_, return (lines 169-176).
    - Queue empty, running, MODE_CACHED, wait timed out, dur >= 60 and
      curThreadSize_ > initThreadSize_: erase self, curThreadSize_--,
      idleThreadSize_--, return (lines 182-205).
    - Queue empty otherwise: keep waiting (lines 186, 210).
    - Queue non-empty (regardless of the running flag): take the front
      task, execute it, then idleThreadSize_++ (lines 220-238). -/
def ThreadPool.workerLoopIter (p : ThreadPool) (threadid : Nat) (timedOut : Bool)
    (dur : Int) : WorkerAction × ThreadPool :=
  match p.taskQue with
  | [] =>
      if p.isPoolRunning = false then
        (WorkerAction.exitShutdown, { p with threads := p.threads.erase threadid })
      else if p.poolMode = PoolMode.MODE_CACHED then
        if timedOut = true ∧ THREAD_MAX_IDLE_TIME ≤ dur
            ∧ p.initThreadSize < p.curThreadSize then
          (WorkerAction.exitIdleTimeout,
           { p with threads := p.threads.erase threadid
                  , curThreadSize := p.curThreadSize - 1
                  , idleThreadSize := p.idleThreadSize - 1 })
        else
          (WorkerAction.waited, p)
      else
        (WorkerAction.waited, p)
  | t :: rest =>
      (WorkerAction.executed t,
       ThreadPool.execDone
         { p with taskQue := rest
                , taskSize := p.taskSize - 1
                , idleThreadSize := p.idleThreadSize - 1 })

/-- The first action of the ThreadPool destructor (threadpool.cpp line
    25): isPoolRunning_ = false.  The subsequent notEmpty_.notify_all
    wakes blocked workers; it has no state content of its own. -/
def ThreadPool.dtorBegin (p : ThreadPool) : ThreadPool :=
  { p with isPoolRunning := false }

/-- The exit condition of the destructor (threadpool.cpp line 30): the
    destroying thread stays blocked on exitCond_ until threads_.size()
    == 0. -/
def ThreadPool.dtorCanFinish (p : ThreadPool) : Bool :=
  p.threads.isEmpty

/-- Events of the interleaving model: each event is one critical
    section of one of the pool operations above, executed atomically
    under taskQueMtx_.  Guards that the code only reaches a section in
    certain states (a worker only runs the reclaim check with the queue
    empty and the pool running, the shutdown-exit path only with the
    queue empty and the pool stopped) are part of the event semantics;
    an unenabled event leaves the state unchanged. -/
inductive PoolEvent where
  | submit (t : Nat)
  | take
  | execDone
  | idleReclaim (threadid : Nat) (dur : Int)
  | stopExit (threadid : Nat)
  | shutdown
  deriving DecidableEq, Repr

/-- Semantics of one event. -/
def applyEvent (p : ThreadPool) (e : PoolEvent) : ThreadPool :=
  match e with
  | PoolEvent.submit t => (p.submitTask t).1
  | PoolEvent.take => (p.workerTake).2
  | PoolEvent.execDone => p.execDone
  | PoolEvent.idleReclaim threadid dur =>
      if p.taskQue = [] ∧ p.isPoolRunning = true ∧ p.poolMode = PoolMode.MODE_CACHED
          ∧ THREAD_MAX_IDLE_TIME ≤ dur ∧ p.initThreadSize < p.curThreadSize then
        { p with threads := p.threads.erase threadid
               , curThreadSize := p.curThreadSize - 1
               , idleThreadSize := p.idleThreadSize - 1 }
      else p
  | PoolEvent.stopExit threadid =>
      if p.taskQue = [] ∧ p.isPoolRunning = false then
        { p with threads := p.threads.erase threadid }
      else p
  | PoolEvent.shutdown => p.dtorBegin

/-- Run a sequence of events from a state. -/
def run : ThreadPool → List PoolEvent → ThreadPool
  | p, [] => p
  | p, e :: es => run (applyEvent p e) es

/-- Number of accepted submissions in an event sequence: a submit event
    counts when the admission predicate holds at the moment it runs. -/
def acceptedCount : ThreadPool → List PoolEvent → Nat
  | _, [] => 0
  | p, e :: es =>
      (match e with
       | PoolEvent.submit _ =>
           if p.taskQue.length < sizeTCast p.taskQueMaxThreshHold then 1 else 0
       | _ => 0) + acceptedCount (applyEvent p e) es

/-- The order in which repeated workerTake steps drain the queue,
    bounded by a fuel argument. -/
def drainN : Nat → ThreadPool → List Nat
  | 0, _ => []
  | Nat.succ n, p =>
      match p.workerTake with
      | (Option.none, _) => []
      | (Option.some t, q) => t :: drainN n q

/-- Sample pool state: a running MODE_CACHED pool with one extra worker
    beyond the initial size and an empty queue, used to instantiate
    theorems at concrete inputs. -/
def cachedIdlePool : ThreadPool :=
  { initThreadSize := 1, threadSizeThreshHold := 1024, curThreadSize := 2
  , idleThreadSize := 2, taskQue := [], taskSize := 0
  , taskQueMaxThreshHold := 2147483647, threads := [0, 1], nextThreadId := 2
  , poolMode := PoolMode.MODE_FIXED, isPoolRunning := true }

/-- Sample pool state: a running MODE_CACHED pool (cachedIdlePool with
    the mode actually set to MODE_CACHED). -/
def cachedIdlePoolC : ThreadPool :=
  { cachedIdlePool with poolMode := PoolMode.MODE_CACHED }

/-- Sample pool state: a running MODE_FIXED pool with two queued
    tasks. -/
def twoTaskPool : ThreadPool :=
  { ThreadPool.new with
      isPoolRunning := true, taskQue := [3, 4], taskSize := 2,
      curThreadSize := 1, idleThreadSize := 1, threads := [0], nextThreadId := 1 }

/-- Sample pool state: a running pool whose queue depth limit is 0, so
    the admission predicate can never hold. -/
def fullPool : ThreadPool :=
  { ThreadPool.new with
      isPoolRunning := true, taskQueMaxThreshHold := 0,
      curThreadSize := 1, idleThreadSize := 1, threads := [0], nextThreadId := 1 }

/-- C10: a newly constructed pool is in Fixed mode with running = false
    and all thread and task counters zero; its default task-queue depth
    limit is INT32_MAX = 2147483647 (so the bounded queue is
    effectively unbounded until lowered before start) and its default
    Cached-mode thread maximum is 1024. -/
theorem new_pool_defaults :
    ThreadPool.new.poolMode = PoolMode.MODE_FIXED
    ∧ ThreadPool.new.isPoolRunning = false
    ∧ ThreadPool.new.initThreadSize = 0
    ∧ ThreadPool.new.curThreadSize = 0
    ∧ ThreadPool.new.idleThreadSize = 0
    ∧ ThreadPool.new.taskSize = 0
    ∧ ThreadPool.new.taskQue = []
    ∧ ThreadPool.new.threads = []
    ∧ ThreadPool.new.taskQueMaxThreshHold = 2147483647
    ∧ ThreadPool.new.threadSizeThreshHold = 1024 := by
  decide

/-- C8: every call to setMode, setTaskQueMaxThreshHold or
    setThreadSizeThreshHold on a running pool leaves the pool state
    unchanged and raises no error, and setThreadSizeThreshHold leaves
    the threshold unchanged on any pool in MODE_FIXED, running or
    not. -/
theorem config_setters_noop (p : ThreadPool) (m : PoolMode) (n k : Int)
    (hrun : p.isPoolRunning = true) :
    p.setMode m = p
    ∧ p.setTaskQueMaxThreshHold n = p
    ∧ p.setThreadSizeThreshHold k = p
    ∧ (∀ q : ThreadPool, q.poolMode = PoolMode.MODE_FIXED →
        q.setThreadSizeThreshHold k = q) := by
  refine ⟨?_, ?_, ?_, ?_⟩
  · simp [ThreadPool.setMode, hrun]
  · simp [ThreadPool.setTaskQueMaxThreshHold, hrun]
  · simp [ThreadPool.setThreadSizeThreshHold, hrun]
  · intro q hq
    simp [ThreadPool.setThreadSizeThreshHold, hq]

/-- Witness for config_setters_noop at a concrete running pool. -/
theorem config_setters_noop_witness :
    (ThreadPool.new.start 1).isPoolRunning = true
    ∧ (ThreadPool.new.start 1).setMode PoolMode.MODE_CACHED = ThreadPool.new.start 1
    ∧ (ThreadPool.new.start 1).setTaskQueMaxThreshHold 5 = ThreadPool.new.start 1
    ∧ (ThreadPool.new.start 1).setThreadSizeThreshHold 7 = ThreadPool.new.start 1
    ∧ ThreadPool.new.setThreadSizeThreshHold 7 = ThreadPool.new :=
  ⟨by decide,
   (config_setters_noop (ThreadPool.new.start 1) PoolMode.MODE_CACHED 5 7 (by decide)).1,
   (config_setters_noop (ThreadPool.new.start 1) PoolMode.MODE_CACHED 5 7 (by decide)).2.1,
   (config_setters_noop (ThreadPool.new.start 1) PoolMode.MODE_CACHED 5 7 (by decide)).2.2.1,
   (config_setters_noop (ThreadPool.new.start 1) PoolMode.MODE_CACHED 5 7
     (by decide)).2.2.2 ThreadPool.new (by decide)⟩

/-- C1: a submitTask call that finds the admission predicate still
    false when its 1-second wait expires (the queue stayed at the depth
    limit) returns an invalid Result and changes nothing: no item is
    enqueued, the whole pool state is untouched, and get on the invalid
    handle returns the default empty value immediately instead of
    waiting on the semaphore. -/
theorem submitTask_rejects_when_full (p : ThreadPool) (t : Nat)
    (_hrun : p.isPoolRunning = true)
    (hfull : ¬ p.taskQue.length < sizeTCast p.taskQueMaxThreshHold) :
    (p.submitTask t).1 = p
    ∧ (p.submitTask t).2.isValid = false
    ∧ (p.submitTask t).2.get = Option.some (Any.str "", (p.submitTask t).2) := by
  refine ⟨?_, ?_, ?_⟩ <;>
    simp [ThreadPool.submitTask, hfull, Result.get]

/-- Witness for submitTask_rejects_when_full: a running pool whose
    queue depth limit is 0 rejects a submission. -/
theorem submitTask_rejects_when_full_witness :
    fullPool.isPoolRunning = true
    ∧ (¬ fullPool.taskQue.length < sizeTCast fullPool.taskQueMaxThreshHold)
    ∧ (fullPool.submitTask 3).1 = fullPool
    ∧ (fullPool.submitTask 3).2.isValid = false
    ∧ (fullPool.submitTask 3).2.get = Option.some (Any.str "", (fullPool.submitTask 3).2) :=
  ⟨by decide, by decide,
   (submitTask_rejects_when_full fullPool 3 (by decide) (by decide)).1,
   (submitTask_rejects_when_full fullPool 3 (by decide) (by decide)).2.1,
   (submitTask_rejects_when_full fullPool 3 (by decide) (by decide)).2.2⟩

/-- C2 counterexample: after setVal has been called once on a fresh
    valid handle, the first get succeeds and consumes the one semaphore
    unit, leaving the handle in a state where a further get finds
    resLimit = 0 and blocks (modelled as Option.none).  Multiple reads
    of an already-filled handle therefore do re-block, refuting the
    claim that readiness is broadcast to all future readers. -/
theorem second_get_on_filled_handle_blocks :
    (({ isValid := true, sem := 0, any := Any.null } : Result).setVal (Any.val 42)).get
      = Option.some (Any.val 42, { isValid := true, sem := 0, any := Any.null })
    ∧ ({ isValid := true, sem := 0, any := Any.null } : Result).get = Option.none := by
  decide

/-- C2 amended: after setVal is called once on a valid handle with no
    prior posts, the first get returns the published value without
    blocking (and moves it out), but any get on a valid handle whose
    semaphore count is back to 0 blocks: the wait consumes the
    resource, so only one read is non-blocking. -/
theorem first_get_succeeds_then_blocks (r : Result) (v : Any)
    (hv : r.isValid = true) (h0 : r.sem = 0) :
    (r.setVal v).get = Option.some (v, { isValid := true, sem := 0, any := Any.null })
    ∧ (∀ r2 : Result, r2.isValid = true → r2.sem = 0 → r2.get = Option.none) := by
  constructor
  · obtain ⟨iv, s, a⟩ := r
    simp only at hv h0
    subst hv h0
    simp [Result.setVal, Result.get]
  · intro r2 hv2 h02
    simp [Result.get, hv2, h02]

/-- Witness for first_get_succeeds_then_blocks at a concrete handle. -/
theorem first_get_succeeds_then_blocks_witness :
    ({ isValid := true, sem := 0, any := Any.null } : Result).isValid = true
    ∧ ({ isValid := true, sem := 0, any := Any.null } : Result).sem = 0
    ∧ (({ isValid := true, sem := 0, any := Any.null } : Result).setVal (Any.val 9)).get
        = Option.some (Any.val 9, { isValid := true, sem := 0, any := Any.null })
    ∧ ({ isValid := true, sem := 0, any := Any.val 5 } : Result).get = Option.none :=
  ⟨rfl, rfl,
   (first_get_succeeds_then_blocks { isValid := true, sem := 0, any := Any.null }
     (Any.val 9) rfl rfl).1,
   (first_get_succeeds_then_blocks { isValid := true, sem := 0, any := Any.null }
     (Any.val 9) rfl rfl).2 { isValid := true, sem := 0, any := Any.val 5 } rfl rfl⟩

/-- C5: an accepted submitTask call grows the worker registry by at
    most one thread, and by exactly one precisely when the pool is in
    MODE_CACHED, the pending-task count after the enqueue exceeds the
    idle-thread count, and the current thread count is below the
    configured maximum; the spawn is part of submitTask itself, and in
    MODE_FIXED an accepted submission never spawns a worker. -/
theorem submitTask_spawn_policy (p : ThreadPool) (t : Nat)
    (hacc : p.taskQue.length < sizeTCast p.taskQueMaxThreshHold) :
    (p.submitTask t).1.threads.length ≤ p.threads.length + 1
    ∧ ((p.submitTask t).1.threads.length = p.threads.length + 1 ↔
        (p.poolMode = PoolMode.MODE_CACHED ∧ p.idleThreadSize < p.taskSize + 1
         ∧ p.curThreadSize < p.threadSizeThreshHold))
    ∧ (p.poolMode = PoolMode.MODE_FIXED →
        (p.submitTask t).1.threads = p.threads
        ∧ (p.submitTask t).1.curThreadSize = p.curThreadSize) := by
  simp only [ThreadPool.submitTask, if_pos hacc]
  split
  · rename_i hcond
    refine ⟨by simp, ?_, ?_⟩
    · simp only [List.length_append, List.length_cons, List.length_nil]
      exact ⟨fun _ => hcond, fun _ => trivial⟩
    · intro hfix
      rw [hfix] at hcond
      simp at hcond
  · rename_i hcond
    refine ⟨by simp, ?_, ?_⟩
    · constructor
      · intro h
        simp at h
      · intro h
        exact absurd h hcond
    · intro _
      exact ⟨rfl, rfl⟩

/-- Witness for submitTask_spawn_policy at a concrete accepted
    submission on a Cached pool that must spawn: one queued task
    arrives while one idle worker exists, so after the enqueue the
    pending count 1 does not exceed the idle count 1 and no spawn
    happens; the registry length stays 1. -/
theorem submitTask_spawn_policy_witness :
    cachedIdlePoolC.taskQue.length < sizeTCast cachedIdlePoolC.taskQueMaxThreshHold
    ∧ (cachedIdlePoolC.submitTask 5).1.threads.length ≤ cachedIdlePoolC.threads.length + 1
    ∧ ((cachedIdlePoolC.submitTask 5).1.threads.length = cachedIdlePoolC.threads.length + 1 ↔
        (cachedIdlePoolC.poolMode = PoolMode.MODE_CACHED
         ∧ cachedIdlePoolC.idleThreadSize < cachedIdlePoolC.taskSize + 1
         ∧ cachedIdlePoolC.curThreadSize < cachedIdlePoolC.threadSizeThreshHold)) :=
  ⟨by decide,
   (submitTask_spawn_policy cachedIdlePoolC 5 (by decide)).1,
   (submitTask_spawn_policy cachedIdlePoolC 5 (by decide)).2.1⟩

/-- Auxiliary: repeatedly applying workerTake drains the queue in
    exactly its list order. -/
theorem drainN_taskQue : ∀ (l : List Nat) (p : ThreadPool), p.taskQue = l →
    drainN l.length p = l := by
  intro l
  induction l with
  | nil =>
      intro p _
      simp [drainN]
  | cons a rest ih =>
      intro p hp
      simp only [List.length_cons, drainN, ThreadPool.workerTake, hp]
      exact congrArg (a :: ·) (ih _ rfl)

/-- C6: dispatch is FIFO in enqueue order.  Repeated workerTake steps
    return the queue contents in exactly their current order, a worker
    always pops the head of the queue (so of two queued tasks the
    earlier-enqueued one is dequeued first), and an accepted submission
    appends at the tail. -/
theorem fifo_dequeue_order (p : ThreadPool) :
    drainN p.taskQue.length p = p.taskQue
    ∧ (∀ a rest, p.taskQue = a :: rest →
        (p.workerTake).1 = Option.some a ∧ (p.workerTake).2.taskQue = rest)
    ∧ (∀ t : Nat, (p.submitTask t).2.isValid = true →
        (p.submitTask t).1.taskQue = p.taskQue ++ [t]) := by
  refine ⟨drainN_taskQue p.taskQue p rfl, ?_, ?_⟩
  · intro a rest hp
    simp [ThreadPool.workerTake, hp]
  · intro t hv
    by_cases hacc : p.taskQue.length < sizeTCast p.taskQueMaxThreshHold
    · simp only [ThreadPool.submitTask, if_pos hacc]
      split <;> rfl
    · simp [ThreadPool.submitTask, if_neg hacc] at hv

/-- Witness for fifo_dequeue_order on a pool holding queue [3, 4]. -/
theorem fifo_dequeue_order_witness :
    drainN twoTaskPool.taskQue.length twoTaskPool = twoTaskPool.taskQue
    ∧ (twoTaskPool.workerTake).1 = Option.some 3
    ∧ (twoTaskPool.workerTake).2.taskQue = [4]
    ∧ (twoTaskPool.submitTask 9).1.taskQue = twoTaskPool.taskQue ++ [9] :=
  ⟨(fifo_dequeue_order twoTaskPool).1,
   ((fifo_dequeue_order twoTaskPool).2.1 3 [4] rfl).1,
   ((fifo_dequeue_order twoTaskPool).2.1 3 [4] rfl).2,
   (fifo_dequeue_order twoTaskPool).2.2 9 (by decide)⟩

/-- C7: a worker that reacquires the lock with the queue still empty on
    a running pool behaves as follows.  In MODE_CACHED, after a wait
    timeout it deregisters itself and decrements curThreadSize_ and
    idleThreadSize_ exactly when the elapsed idle time is at least 60
    seconds and the current thread count exceeds the initial size; in
    MODE_FIXED every iteration just waits again, leaving the state
    unchanged, so an idle worker never self-terminates while the pool
    is running. -/
theorem idle_reclamation_policy (p : ThreadPool) (threadid : Nat) (dur : Int)
    (hq : p.taskQue = []) (hrun : p.isPoolRunning = true) :
    (p.poolMode = PoolMode.MODE_CACHED →
      (((p.workerLoopIter threadid true dur).1 = WorkerAction.exitIdleTimeout)
        ↔ (THREAD_MAX_IDLE_TIME ≤ dur ∧ p.initThreadSize < p.curThreadSize))
      ∧ (THREAD_MAX_IDLE_TIME ≤ dur → p.initThreadSize < p.curThreadSize →
          (p.workerLoopIter threadid true dur).2
            = { p with threads := p.threads.erase threadid
                     , curThreadSize := p.curThreadSize - 1
                     , idleThreadSize := p.idleThreadSize - 1 }))
    ∧ (p.poolMode = PoolMode.MODE_FIXED →
        ∀ (timedOut : Bool) (dur2 : Int),
          (p.workerLoopIter threadid timedOut dur2).1 = WorkerAction.waited
          ∧ (p.workerLoopIter threadid timedOut dur2).2 = p) := by
  constructor
  · intro hcached
    simp only [ThreadPool.workerLoopIter, hq, hrun, hcached]
    constructor
    · by_cases hc : THREAD_MAX_IDLE_TIME ≤ dur ∧ p.initThreadSize < p.curThreadSize
        <;> simp [hc]
    · intro h60 hcur
      simp [h60, hcur]
  · intro hfix timedOut dur2
    simp [ThreadPool.workerLoopIter, hq, hrun, hfix]

/-- Witness for idle_reclamation_policy: the Cached sample pool with
    one extra thread reclaims itself after a 60-second timeout, and the
    Fixed sample pool just keeps waiting. -/
theorem idle_reclamation_policy_witness :
    cachedIdlePoolC.taskQue = []
    ∧ cachedIdlePoolC.isPoolRunning = true
    ∧ (cachedIdlePoolC.workerLoopIter 1 true 60).1 = WorkerAction.exitIdleTimeout
    ∧ (cachedIdlePool.workerLoopIter 1 true 60).1 = WorkerAction.waited
    ∧ (cachedIdlePool.workerLoopIter 1 true 60).2 = cachedIdlePool :=
  ⟨rfl, rfl,
   (((idle_reclamation_policy cachedIdlePoolC 1 60 rfl rfl).1 rfl).1).mpr (by decide),
   ((idle_reclamation_policy cachedIdlePool 1 60 rfl rfl).2 rfl true 60).1,
   ((idle_reclamation_policy cachedIdlePool 1 60 rfl rfl).2 rfl true 60).2⟩

/-- C9 counterexample: queued-but-undispatched tasks are not abandoned
    at shutdown.  A pool is started with one worker, one task is
    accepted into the queue, and the destructor begins (running becomes
    false); the next worker iteration nevertheless dequeues and
    executes the queued task, because threadFunc only consults the
    running flag when the queue is empty. -/
theorem queued_task_executed_after_shutdown :
    ((ThreadPool.new.start 1).submitTask 7).2.isValid = true
    ∧ (((ThreadPool.new.start 1).submitTask 7).1.dtorBegin.isPoolRunning = false)
    ∧ ((((ThreadPool.new.start 1).submitTask 7).1.dtorBegin.workerLoopIter 0 false 0).1
        = WorkerAction.executed 7) := by
  decide

/-- C9 amended: the destructor sets running to false (leaving queue and
    registry as they are) and the destroying thread may finish only
    once the worker registry is empty.  A worker exits only when it
    observes an empty queue, any task at the head of the queue is
    dequeued and executed by the next worker iteration even after
    shutdown has begun (so in-flight and still-queued work alike runs
    to completion and is published during teardown), and executing a
    task publishes into its paired Result, whose semaphore then allows
    a get to return. -/
theorem shutdown_protocol (p : ThreadPool) :
    (p.dtorBegin.isPoolRunning = false ∧ p.dtorBegin.taskQue = p.taskQue
      ∧ p.dtorBegin.threads = p.threads)
    ∧ (p.dtorCanFinish = true ↔ p.threads = [])
    ∧ (∀ (threadid : Nat) (timedOut : Bool) (dur : Int),
        ((p.workerLoopIter threadid timedOut dur).1 = WorkerAction.exitShutdown
          ∨ (p.workerLoopIter threadid timedOut dur).1 = WorkerAction.exitIdleTimeout)
        → p.taskQue = [])
    ∧ (∀ (t : Nat) (rest : List Nat) (threadid : Nat) (timedOut : Bool) (dur : Int),
        p.taskQue = t :: rest →
        (p.workerLoopIter threadid timedOut dur).1 = WorkerAction.executed t)
    ∧ (∀ (tk : Task) (r : Result), tk.result = Option.some r →
        tk.exec.result = Option.some (r.setVal tk.runVal)
        ∧ 0 < (r.setVal tk.runVal).sem) := by
  refine ⟨⟨rfl, rfl, rfl⟩, ?_, ?_, ?_, ?_⟩
  · simp [ThreadPool.dtorCanFinish, List.isEmpty_iff]
  · intro threadid timedOut dur h
    cases hq : p.taskQue with
    | nil => rfl
    | cons t rest =>
        simp only [ThreadPool.workerLoopIter, hq] at h
        rcases h with h | h <;> exact absurd h (by simp)
  · intro t rest threadid timedOut dur hq
    simp [ThreadPool.workerLoopIter, hq]
  · intro tk r hr
    refine ⟨?_, ?_⟩
    · simp [Task.exec, hr]
    · simp [Result.setVal]

/-- Witness for shutdown_protocol on the sample pool with two queued
    tasks, after shutdown has begun. -/
theorem shutdown_protocol_witness :
    twoTaskPool.dtorBegin.isPoolRunning = false
    ∧ (twoTaskPool.dtorBegin.dtorCanFinish = true ↔ twoTaskPool.dtorBegin.threads = [])
    ∧ (twoTaskPool.dtorBegin.workerLoopIter 0 false 0).1 = WorkerAction.executed 3
    ∧ (({ result := Option.some { isValid := true, sem := 0, any := Any.null }
        , runVal := Any.val 11 } : Task).exec.result
        = Option.some { isValid := true, sem := 1, any := Any.val 11 }) :=
  ⟨(shutdown_protocol twoTaskPool).1.1,
   (shutdown_protocol twoTaskPool.dtorBegin).2.1,
   (shutdown_protocol twoTaskPool.dtorBegin).2.2.2.1 3 [4] 0 false 0 rfl,
   ((shutdown_protocol twoTaskPool).2.2.2.2
     { result := Option.some { isValid := true, sem := 0, any := Any.null }
     , runVal := Any.val 11 }
     { isValid := true, sem := 0, any := Any.null } rfl).1⟩

/-- Auxiliary: the size_t conversion is the identity on values in the
    int32 range that are nonnegative. -/
theorem sizeTCast_int_eq (i : Int) (h0 : 0 ≤ i) (h1 : i < 2 ^ 31) :
    ((sizeTCast i : Nat) : Int) = i := by
  unfold sizeTCast
  rw [Int.emod_eq_of_lt h0 (by omega)]
  exact Int.toNat_of_nonneg h0

/-- Auxiliary: no event changes the configuration fields (queue depth
    limit, thread maximum, mode, initial size). -/
theorem applyEvent_config (p : ThreadPool) (e : PoolEvent) :
    (applyEvent p e).taskQueMaxThreshHold = p.taskQueMaxThreshHold
    ∧ (applyEvent p e).threadSizeThreshHold = p.threadSizeThreshHold
    ∧ (applyEvent p e).poolMode = p.poolMode
    ∧ (applyEvent p e).initThreadSize = p.initThreadSize := by
  cases e with
  | submit t =>
      simp only [applyEvent, ThreadPool.submitTask]
      split
      · split <;> exact ⟨rfl, rfl, rfl, rfl⟩
      · exact ⟨rfl, rfl, rfl, rfl⟩
  | take =>
      cases hq : p.taskQue <;> simp [applyEvent, ThreadPool.workerTake, hq]
  | execDone => exact ⟨rfl, rfl, rfl, rfl⟩
  | idleReclaim threadid dur =>
      simp only [applyEvent]
      split <;> exact ⟨rfl, rfl, rfl, rfl⟩
  | stopExit threadid =>
      simp only [applyEvent]
      split <;> exact ⟨rfl, rfl, rfl, rfl⟩
  | shutdown => exact ⟨rfl, rfl, rfl, rfl⟩

/-- Auxiliary: one event keeps the queue length within a threshold that
    bounds it beforehand, provided the threshold is a nonnegative int32
    value (so that the size_t conversion in the admission predicate is
    the identity). -/
theorem applyEvent_queue_len (p : ThreadPool) (e : PoolEvent)
    (h0 : 0 ≤ p.taskQueMaxThreshHold) (h1 : p.taskQueMaxThreshHold < 2 ^ 31)
    (hlen : (p.taskQue.length : Int) ≤ p.taskQueMaxThreshHold) :
    ((applyEvent p e).taskQue.length : Int) ≤ p.taskQueMaxThreshHold := by
  cases e with
  | submit t =>
      simp only [applyEvent, ThreadPool.submitTask]
      split
      · rename_i hacc
        have hcast : ((sizeTCast p.taskQueMaxThreshHold : Nat) : Int)
            = p.taskQueMaxThreshHold := sizeTCast_int_eq _ h0 h1
        have hlt : ((p.taskQue.length : Nat) : Int)
            < ((sizeTCast p.taskQueMaxThreshHold : Nat) : Int) := by exact_mod_cast hacc
        split
        all_goals
          simp only [List.length_append, List.length_cons, List.length_nil]
          omega
      · exact hlen
  | take =>
      cases hq : p.taskQue with
      | nil => simpa [applyEvent, ThreadPool.workerTake, hq] using hlen
      | cons a rest =>
          simp only [applyEvent, ThreadPool.workerTake, hq]
          rw [hq] at hlen
          simp only [List.length_cons] at hlen
          omega
  | execDone => exact hlen
  | idleReclaim threadid dur =>
      simp only [applyEvent]
      split <;> exact hlen
  | stopExit threadid =>
      simp only [applyEvent]
      split <;> exact hlen
  | shutdown => exact hlen

/-- Auxiliary: the queue-length bound is preserved along any event
    sequence. -/
theorem run_queue_len (p : ThreadPool) (evs : List PoolEvent)
    (h0 : 0 ≤ p.taskQueMaxThreshHold) (h1 : p.taskQueMaxThreshHold < 2 ^ 31)
    (hlen : (p.taskQue.length : Int) ≤ p.taskQueMaxThreshHold) :
    ((run p evs).taskQue.length : Int) ≤ (run p evs).taskQueMaxThreshHold := by
  induction evs generalizing p with
  | nil => simpa [run] using hlen
  | cons e es ih =>
      have hc := (applyEvent_config p e).1
      have hstep := applyEvent_queue_len p e h0 h1 hlen
      simp only [run]
      apply ih
      · rw [hc]; exact h0
      · rw [hc]; exact h1
      · rw [hc]; exact hstep

/-- C3: along every sequence of submissions and worker steps from a
    state whose queue respects a nonnegative int32 depth limit, the
    queue length stays between 0 and the limit at every observation
    point, and the only step that grows the queue is a submitTask call
    that observed the admission predicate under the queue lock. -/
theorem queue_bound_invariant (p : ThreadPool) (evs : List PoolEvent)
    (h0 : 0 ≤ p.taskQueMaxThreshHold) (h1 : p.taskQueMaxThreshHold < 2 ^ 31)
    (hlen : (p.taskQue.length : Int) ≤ p.taskQueMaxThreshHold) :
    (0 ≤ (run p evs).taskQue.length
      ∧ ((run p evs).taskQue.length : Int) ≤ (run p evs).taskQueMaxThreshHold)
    ∧ (∀ (q : ThreadPool) (t : Nat),
        q.taskQue.length < (q.submitTask t).1.taskQue.length →
        q.taskQue.length < sizeTCast q.taskQueMaxThreshHold) := by
  refine ⟨⟨Nat.zero_le _, run_queue_len p evs h0 h1 hlen⟩, ?_⟩
  intro q t hgrow
  by_cases hacc : q.taskQue.length < sizeTCast q.taskQueMaxThreshHold
  · exact hacc
  · simp [ThreadPool.submitTask, if_neg hacc] at hgrow

/-- Witness for queue_bound_invariant: a freshly started pool with two
    submissions and one dequeue keeps the bound. -/
theorem queue_bound_invariant_witness :
    (0 ≤ (ThreadPool.new.start 2).taskQueMaxThreshHold
      ∧ (ThreadPool.new.start 2).taskQueMaxThreshHold < 2 ^ 31
      ∧ (((ThreadPool.new.start 2).taskQue.length : Int)
          ≤ (ThreadPool.new.start 2).taskQueMaxThreshHold))
    ∧ ((run (ThreadPool.new.start 2)
          [PoolEvent.submit 1, PoolEvent.submit 2, PoolEvent.take]).taskQue.length : Int)
        ≤ (run (ThreadPool.new.start 2)
          [PoolEvent.submit 1, PoolEvent.submit 2, PoolEvent.take]).taskQueMaxThreshHold :=
  ⟨⟨by decide, by decide, by decide⟩,
   (queue_bound_invariant (ThreadPool.new.start 2)
     [PoolEvent.submit 1, PoolEvent.submit 2, PoolEvent.take]
     (by decide) (by decide) (by decide)).1.2⟩

/-- C4 counterexample: the claim fails on both of its bounds.  start
    performs no check of the initial size against the thread maximum,
    so a Cached pool started with 2000 threads has curThreadCount 2000
    above threadSizeThreshHold 1024; and a Cached pool started with one
    thread has curThreadCount 1 while no task was ever submitted, so
    curThreadCount exceeds the number of pending plus in-flight tasks
    submitted so far (which is 0). -/
theorem cached_growth_counterexample :
    ((ThreadPool.new.setMode PoolMode.MODE_CACHED).start 2000).poolMode = PoolMode.MODE_CACHED
    ∧ ((ThreadPool.new.setMode PoolMode.MODE_CACHED).start 2000).curThreadSize = 2000
    ∧ ((ThreadPool.new.setMode PoolMode.MODE_CACHED).start 2000).threadSizeThreshHold = 1024
    ∧ ¬ ((2000 : Int) ≤ 1024)
    ∧ ((ThreadPool.new.setMode PoolMode.MODE_CACHED).start 1).curThreadSize = 1
    ∧ ((ThreadPool.new.setMode PoolMode.MODE_CACHED).start 1).taskSize = 0
    ∧ ((ThreadPool.new.setMode PoolMode.MODE_CACHED).start 1).taskQue = []
    ∧ acceptedCount ((ThreadPool.new.setMode PoolMode.MODE_CACHED).start 1) [] = 0
    ∧ ¬ ((1 : Int) ≤ 0) := by
  decide

/-- Auxiliary: one event keeps curThreadSize within the thread
    threshold. -/
theorem applyEvent_cur_le (p : ThreadPool) (e : PoolEvent)
    (h : p.curThreadSize ≤ p.threadSizeThreshHold) :
    (applyEvent p e).curThreadSize ≤ p.threadSizeThreshHold := by
  cases e with
  | submit t =>
      simp only [applyEvent, ThreadPool.submitTask]
      split
      · split
        · rename_i hcond
          have hlt := hcond.2.2
          simp only at hlt ⊢
          omega
        · exact h
      · exact h
  | take =>
      cases hq : p.taskQue <;> simpa [applyEvent, ThreadPool.workerTake, hq] using h
  | execDone => exact h
  | idleReclaim threadid dur =>
      simp only [applyEvent]
      split
      · simp only
        omega
      · exact h
  | stopExit threadid =>
      simp only [applyEvent]
      split <;> exact h
  | shutdown => exact h

/-- Auxiliary: the thread-count bound is preserved along any event
    sequence. -/
theorem run_cur_le (p : ThreadPool) (evs : List PoolEvent)
    (h : p.curThreadSize ≤ p.threadSizeThreshHold) :
    (run p evs).curThreadSize ≤ (run p evs).threadSizeThreshHold := by
  induction evs generalizing p with
  | nil => simpa [run] using h
  | cons e es ih =>
      have hc := (applyEvent_config p e).2.1
      have hstep := applyEvent_cur_le p e h
      simp only [run]
      apply ih
      rw [hc]
      exact hstep

/-- Auxiliary: one event raises curThreadSize by at most the number of
    submissions it accepts (1 for an accepted submit, 0 otherwise). -/
theorem applyEvent_cur_growth (p : ThreadPool) (e : PoolEvent) :
    (applyEvent p e).curThreadSize ≤ p.curThreadSize + (acceptedCount p [e] : Int) := by
  cases e with
  | submit t =>
      simp only [applyEvent, acceptedCount, ThreadPool.submitTask]
      by_cases hacc : p.taskQue.length < sizeTCast p.taskQueMaxThreshHold
      · simp only [if_pos hacc]
        split
        · simp only
          push_cast
          omega
        · simp only
          push_cast
          omega
      · simp only [if_neg hacc]
        push_cast
        omega
  | take =>
      cases hq : p.taskQue <;>
        simp [applyEvent, acceptedCount, ThreadPool.workerTake, hq]
  | execDone => simp [applyEvent, acceptedCount, ThreadPool.execDone]
  | idleReclaim threadid dur =>
      simp only [applyEvent, acceptedCount]
      split
      · simp only
        push_cast
        omega
      · simp
  | stopExit threadid =>
      simp only [applyEvent, acceptedCount]
      split <;> simp
  | shutdown => simp [applyEvent, acceptedCount, ThreadPool.dtorBegin]

/-- Auxiliary: along any event sequence curThreadSize grows by at most
    the number of accepted submissions. -/
theorem run_cur_growth (p : ThreadPool) (evs : List PoolEvent) :
    (run p evs).curThreadSize ≤ p.curThreadSize + (acceptedCount p evs : Int) := by
  induction evs generalizing p with
  | nil => simp [run, acceptedCount]
  | cons e es ih =>
      have h1 := applyEvent_cur_growth p e
      have h2 := ih (applyEvent p e)
      have hAcc : acceptedCount p (e :: es)
          = acceptedCount p [e] + acceptedCount (applyEvent p e) es := by
        cases e <;> simp [acceptedCount]
      simp only [run]
      rw [hAcc] at *
      push_cast at *
      omega

/-- C4 amended: in Cached mode, provided the initial size passed to
    start does not exceed threadSizeThreshHold, curThreadSize never
    exceeds threadSizeThreshHold at any later observation point; and
    curThreadSize never exceeds the initial size plus the number of
    accepted submissions so far (start alone already creates
    initialSize threads with zero tasks submitted, so the bound
    relative to task counts must include the initial size). -/
theorem cached_growth_bound_amended (p : ThreadPool) (n : Int) (evs : List PoolEvent)
    (_hmode : p.poolMode = PoolMode.MODE_CACHED)
    (hn : n ≤ p.threadSizeThreshHold) :
    (run (p.start n) evs).curThreadSize ≤ (run (p.start n) evs).threadSizeThreshHold
    ∧ (run (p.start n) evs).curThreadSize ≤ n + (acceptedCount (p.start n) evs : Int) := by
  constructor
  · exact run_cur_le (p.start n) evs (by simpa [ThreadPool.start] using hn)
  · have h := run_cur_growth (p.start n) evs
    simpa [ThreadPool.start] using h

/-- Witness for cached_growth_bound_amended: a Cached pool started with
    one thread and two submissions. -/
theorem cached_growth_bound_amended_witness :
    ((ThreadPool.new.setMode PoolMode.MODE_CACHED).poolMode = PoolMode.MODE_CACHED
      ∧ (1 : Int) ≤ (ThreadPool.new.setMode PoolMode.MODE_CACHED).threadSizeThreshHold)
    ∧ (run ((ThreadPool.new.setMode PoolMode.MODE_CACHED).start 1)
        [PoolEvent.submit 5, PoolEvent.submit 6]).curThreadSize
      ≤ (run ((ThreadPool.new.setMode PoolMode.MODE_CACHED).start 1)
        [PoolEvent.submit 5, PoolEvent.submit 6]).threadSizeThreshHold
    ∧ (run ((ThreadPool.new.setMode PoolMode.MODE_CACHED).start 1)
        [PoolEvent.submit 5, PoolEvent.submit 6]).curThreadSize
      ≤ 1 + (acceptedCount ((ThreadPool.new.setMode PoolMode.MODE_CACHED).start 1)
        [PoolEvent.submit 5, PoolEvent.submit 6] : Int) :=
  ⟨⟨by decide, by decide⟩,
   (cached_growth_bound_amended (ThreadPool.new.setMode PoolMode.MODE_CACHED) 1
     [PoolEvent.submit 5, PoolEvent.submit 6] (by decide) (by decide)).1,
   (cached_growth_bound_amended (ThreadPool.new.setMode PoolMode.MODE_CACHED) 1
     [PoolEvent.submit 5, PoolEvent.submit 6] (by decide) (by decide)).2⟩

end ThreadPoolModel
